import Mathlib

/-!
Verification development for the research-paper-rag Lambda
(`src/lambda/lambda_function.py`).

The embedding models the numerical payload of numpy float arrays by exact
rationals (`ℚ`) extended with the IEEE special values `inf`, `-inf`, `nan`
(type `FVal`), which is where the zero-norm division behaviour of
`semantic_search` lives.  `np.linalg.norm`'s real square root is modelled by
`ratSqrt`, which agrees with the true square root on perfect squares (all
concrete inputs used below) and always maps `0` to `0` and positives to
positives, so zero-norm detection is exact.  The ranking-order and length
theorems hold for arbitrary score values and do not depend on the square
root's values.  `np.argsort` (default `kind='quicksort'`, whose tie order
numpy documents as unspecified) is modelled as an ascending sort of the
index range with a fixed canonical tie-breaking (ascending original
index, i.e. a lexicographic sort by (value, index)); every universally
quantified theorem below uses only tie-order-independent consequences
(the output is a permutation of the index range, sorted by value), and
tie order is relied on only at the concrete two-element input of the C2
counterexample, where numpy's actual behaviour (insertion sort on small
arrays) coincides with the canonical choice.  Numpy places `nan` after
every finite value and `inf` when sorting ascending, which is the order
`fltP` implements.
-/

namespace RagLambda

/-- IEEE-style float value: an exact finite rational, `inf`, `-inf` or `nan`. -/
inductive FVal where
  | fin (q : ℚ)
  | inf
  | neginf
  | nan
deriving DecidableEq

/-- Sort class of a float value: the ascending-sort order numpy uses places
`-inf` first, then finite values, then `inf`, then `nan` (numpy sorts `nan`
to the end of an ascending sort). -/
def fclass : FVal → Nat
  | .neginf => 0
  | .fin _ => 1
  | .inf => 2
  | .nan => 3

/-- Numeric payload of a finite float value. -/
def fval : FVal → ℚ
  | .fin q => q
  | _ => 0

/-- Strict sort order on float values as used by numpy's ascending sort. -/
def fltP (a b : FVal) : Prop :=
  fclass a < fclass b ∨ (fclass a = fclass b ∧ fval a < fval b)

instance (a b : FVal) : Decidable (fltP a b) :=
  inferInstanceAs (Decidable (_ ∨ _))

/-- Float division `a / b` of finite operands: division by zero produces
`nan` for `0 / 0` and `±inf` otherwise, as in IEEE / numpy. -/
def fdiv (a b : ℚ) : FVal :=
  if b = 0 then
    (if a = 0 then .nan else if 0 < a then .inf else .neginf)
  else .fin (a / b)

/-- `np.dot` of two vectors (exact-rational model of float dot product). -/
def dot (xs ys : List ℚ) : ℚ :=
  (List.zipWith (· * ·) xs ys).sum

/-- Squared Euclidean norm of a vector. -/
def normSq (xs : List ℚ) : ℚ :=
  dot xs xs

/-- Model of the real square root used by `np.linalg.norm`: exact on
rationals whose numerator and denominator are perfect squares (every
concrete input below), and in general maps `0` to `0` and positive
rationals to positive rationals, so `ratSqrt (normSq v) = 0 ↔ normSq v = 0`,
which is all the zero-norm arguments need. -/
def ratSqrt (q : ℚ) : ℚ :=
  (Nat.sqrt q.num.toNat : ℚ) / (Nat.sqrt q.den : ℚ)

/-- `similarities = np.dot(paper_embeddings, query_embedding) /
(np.linalg.norm(paper_embeddings, axis=1) * np.linalg.norm(query_embedding))`
(line 88-90): one cosine score per matrix row. -/
def similarities (paper_embeddings : List (List ℚ)) (query_embedding : List ℚ) :
    List FVal :=
  paper_embeddings.map fun row =>
    fdiv (dot row query_embedding)
      (ratSqrt (normSq row) * ratSqrt (normSq query_embedding))

/-- Score of row `i` (numpy fancy indexing `similarities[top_indices]` only
ever uses in-range indices, so the default is never consulted). -/
def sGet (s : List FVal) (i : Nat) : FVal :=
  s.getD i .nan

/-- The order in which the model's `argsort` lists two indices of the
score array: ascending by score, and — as the model's canonical choice
for the tie order numpy leaves unspecified — ascending by original index
on ties. -/
def argR (s : List FVal) (i j : Nat) : Prop :=
  fltP (sGet s i) (sGet s j) ∨ (sGet s i = sGet s j ∧ i ≤ j)

instance (s : List FVal) : DecidableRel (argR s) := fun _ _ =>
  inferInstanceAs (Decidable (_ ∨ _))

theorem fltP_trans {a b c : FVal} (h1 : fltP a b) (h2 : fltP b c) : fltP a c := by
  rcases h1 with h1 | ⟨h1e, h1v⟩ <;> rcases h2 with h2 | ⟨h2e, h2v⟩
  · exact Or.inl (lt_trans h1 h2)
  · exact Or.inl (h2e ▸ h1)
  · exact Or.inl (h1e ▸ h2)
  · exact Or.inr ⟨h1e.trans h2e, lt_trans h1v h2v⟩

theorem fltP_total_eq {a b : FVal} (h1 : ¬ fltP a b) (h2 : ¬ fltP b a) : a = b := by
  cases a <;> cases b <;>
    simp only [fltP, fclass, fval, not_or, not_and, not_lt] at h1 h2
  all_goals
    first
      | rfl
      | exact absurd h1.1 (by omega)
      | exact absurd h2.1 (by omega)
      | exact congrArg FVal.fin (le_antisymm (h2.2 rfl) (h1.2 rfl))
      | exact congrArg FVal.fin (le_antisymm (h2.2 trivial) (h1.2 trivial))

theorem fltP_asymm {a b : FVal} (h : fltP a b) : ¬ fltP b a := by
  rcases h with h | ⟨he, hv⟩ <;> intro h2 <;> rcases h2 with h2 | ⟨h2e, h2v⟩
  · omega
  · omega
  · omega
  · exact absurd (lt_trans hv h2v) (lt_irrefl _)

instance (s : List FVal) : IsTotal Nat (argR s) where
  total i j := by
    by_cases h1 : fltP (sGet s i) (sGet s j)
    · exact Or.inl (Or.inl h1)
    · by_cases h2 : fltP (sGet s j) (sGet s i)
      · exact Or.inr (Or.inl h2)
      · rcases Nat.le_total i j with h | h
        · exact Or.inl (Or.inr ⟨fltP_total_eq h1 h2, h⟩)
        · exact Or.inr (Or.inr ⟨fltP_total_eq h2 h1, h⟩)

instance (s : List FVal) : IsTrans Nat (argR s) where
  trans i j k h1 h2 := by
    rcases h1 with h1 | ⟨h1e, h1le⟩
    · rcases h2 with h2 | ⟨h2e, _⟩
      · exact Or.inl (fltP_trans h1 h2)
      · exact Or.inl (h2e ▸ h1)
    · rcases h2 with h2 | ⟨h2e, h2le⟩
      · exact Or.inl (h1e ▸ h2)
      · exact Or.inr ⟨h1e.trans h2e, Nat.le_trans h1le h2le⟩

/-- `np.argsort(similarities)` (line 92): the indices `0..N-1` sorted
ascending by score.  The default `kind='quicksort'` leaves the relative
order of equal scores unspecified; the model resolves ties by original
(ascending) position as a canonical refinement, and no universally
quantified theorem depends on that choice. -/
def argsort (s : List FVal) : List Nat :=
  List.insertionSort (argR s) (List.range s.length)

/-- Python slice `a[-top_k:]`: for `top_k = 0` this is `a[-0:] = a[0:]`,
i.e. the whole list; for `top_k > 0` it is the last `min top_k (len a)`
elements. -/
def lastSlice (l : List Nat) (top_k : Nat) : List Nat :=
  if top_k = 0 then l else l.drop (l.length - top_k)

/-- `semantic_search` (lines 87-94): cosine scores, then
`np.argsort(similarities)[-top_k:][::-1]`, returned together with the
scores of the selected rows. -/
def semantic_search (query_embedding : List ℚ) (paper_embeddings : List (List ℚ))
    (top_k : Nat := 10) : List Nat × List FVal :=
  let sims := similarities paper_embeddings query_embedding
  let top_indices := (lastSlice (argsort sims) top_k).reverse
  (top_indices, top_indices.map (sGet sims))

theorem argsort_perm (s : List FVal) : (argsort s).Perm (List.range s.length) :=
  List.perm_insertionSort _ _

theorem argsort_length (s : List FVal) : (argsort s).length = s.length := by
  simpa using (argsort_perm s).length_eq

theorem argsort_sorted (s : List FVal) : (argsort s).Sorted (argR s) :=
  List.sorted_insertionSort _ _

theorem argsort_nodup (s : List FVal) : (argsort s).Nodup :=
  ((argsort_perm s).nodup_iff).mpr (List.nodup_range _)

theorem similarities_length (m : List (List ℚ)) (q : List ℚ) :
    (similarities m q).length = m.length := by
  simp [similarities]

theorem lastSlice_length (l : List Nat) (k : Nat) :
    (lastSlice l k).length = if k = 0 then l.length else min k l.length := by
  unfold lastSlice
  by_cases h : k = 0
  · simp [h]
  · simp only [h, if_false, List.length_drop]
    omega

theorem semantic_search_len (q : List ℚ) (m : List (List ℚ)) (k : Nat) :
    (semantic_search q m k).1.length = if k = 0 then m.length else min k m.length := by
  show ((lastSlice (argsort (similarities m q)) k).reverse).length = _
  rw [List.length_reverse, lastSlice_length, argsort_length, similarities_length]

theorem nan_eq_fin_false (q : ℚ) : (FVal.nan = FVal.fin q) = False := by simp

theorem fin_eq_nan_false (q : ℚ) : (FVal.fin q = FVal.nan) = False := by simp

theorem lastSlice_sublist (l : List Nat) (k : Nat) : (lastSlice l k).Sublist l := by
  unfold lastSlice
  split
  · exact List.Sublist.refl l
  · exact List.drop_sublist _ l

theorem normSq_cons (x : ℚ) (t : List ℚ) : normSq (x :: t) = x * x + normSq t := by
  simp [normSq, dot]

theorem normSq_nonneg (xs : List ℚ) : 0 ≤ normSq xs := by
  induction xs with
  | nil => simp [normSq, dot]
  | cons x t ih =>
    rw [normSq_cons]
    exact add_nonneg (mul_self_nonneg x) ih

theorem normSq_eq_zero {xs : List ℚ} (h : normSq xs = 0) : ∀ x ∈ xs, x = 0 := by
  induction xs with
  | nil => simp
  | cons x t ih =>
    rw [normSq_cons] at h
    have hx2 : 0 ≤ x * x := mul_self_nonneg x
    have ht : 0 ≤ normSq t := normSq_nonneg t
    have hx : x * x = 0 := by linarith
    have ht0 : normSq t = 0 := by linarith
    intro y hy
    rcases List.mem_cons.mp hy with rfl | hy
    · exact mul_self_eq_zero.mp hx
    · exact ih ht0 y hy

theorem dot_zero_left {xs : List ℚ} (ys : List ℚ) (h : ∀ x ∈ xs, x = 0) :
    dot xs ys = 0 := by
  induction xs generalizing ys with
  | nil => simp [dot]
  | cons x t ih =>
    cases ys with
    | nil => simp [dot]
    | cons y u =>
      have hx : x = 0 := h x (List.mem_cons_self x t)
      have : dot (x :: t) (y :: u) = x * y + dot t u := by simp [dot]
      rw [this, hx, zero_mul, zero_add]
      exact ih u fun z hz => h z (List.mem_cons_of_mem x hz)

theorem dot_zero_right (xs : List ℚ) {ys : List ℚ} (h : ∀ y ∈ ys, y = 0) :
    dot xs ys = 0 := by
  induction xs generalizing ys with
  | nil => simp [dot]
  | cons x t ih =>
    cases ys with
    | nil => simp [dot]
    | cons y u =>
      have hy : y = 0 := h y (List.mem_cons_self y u)
      have : dot (x :: t) (y :: u) = x * y + dot t u := by simp [dot]
      rw [this, hy, mul_zero, zero_add]
      exact ih fun z hz => h z (List.mem_cons_of_mem y hz)

theorem ratSqrt_zero : ratSqrt 0 = 0 := by
  simp [ratSqrt]

theorem sGet_similarities (m : List (List ℚ)) (q : List ℚ) (i : Nat)
    (hi : i < m.length) :
    sGet (similarities m q) i =
      fdiv (dot (m.getD i []) q)
        (ratSqrt (normSq (m.getD i [])) * ratSqrt (normSq q)) := by
  have hlen : i < (similarities m q).length := by
    rw [similarities_length]; exact hi
  unfold sGet similarities
  rw [List.getD_eq_getElem?_getD, List.getElem?_map,
    List.getElem?_eq_getElem hi, List.getD_eq_getElem?_getD,
    List.getElem?_eq_getElem hi]
  rfl

/-! ## Claim C1: output length of `semantic_search` -/

/-- The spec's P2, as claimed (for refutation): the ranked result has
length `min top_k N` for every `top_k ≥ 0`. -/
def rankLenSpec (q : List ℚ) (m : List (List ℚ)) (k : Nat) : Prop :=
  (semantic_search q m k).1.length = min k m.length

/-- C1 counterexample: `top_k = 0` does not yield an empty result.  The
slice `[-top_k:]` is `[-0:]`, i.e. the whole array, so a 1-row matrix
yields 1 result where the claim demands `min 0 1 = 0`. -/
theorem c1_counterexample : ¬ rankLenSpec [1] [[1]] 0 := by
  intro h
  have : (semantic_search [1] [[(1:ℚ)]] 0).1.length = 1 := by decide
  rw [rankLenSpec, this] at h
  simp at h

/-- C1 amended: for `top_k ≥ 1` the ranked result (indices and scores) has
length `min top_k N`; `top_k = 0` returns all `N` rows (Python's `[-0:]`
slice is the whole array), not an empty result. -/
theorem c1_amended (q : List ℚ) (m : List (List ℚ)) (k : Nat) :
    (semantic_search q m k).1.length = (if k = 0 then m.length else min k m.length) ∧
    (semantic_search q m k).2.length = (if k = 0 then m.length else min k m.length) := by
  refine ⟨semantic_search_len q m k, ?_⟩
  show (((lastSlice (argsort (similarities m q)) k).reverse).map _).length = _
  rw [List.length_map]
  exact semantic_search_len q m k

/-! ## Claim C2: ranking order of `semantic_search` -/

/-- The spec's P1, as claimed (for refutation): output sorted by strictly
descending-or-equal score, with equal scores in ascending index order. -/
def rankOrderSpec (q : List ℚ) (m : List (List ℚ)) (k : Nat) : Prop :=
  ((semantic_search q m k).1).Pairwise fun i j =>
    ¬ fltP (sGet (similarities m q) i) (sGet (similarities m q) j) ∧
    (sGet (similarities m q) i = sGet (similarities m q) j → i < j)

/-- C2 counterexample: two identical rows tie, and the `[::-1]` reversal
of the ascending argsort lists the tied rows in descending index order
`[1, 0]`, not the ascending order the claim demands.  (On an array this
small numpy's quicksort is an insertion sort, so the model's tie order
coincides with numpy's actual behaviour at this input.) -/
theorem c2_counterexample : ¬ rankOrderSpec [1, 0] [[1, 0], [1, 0]] 10 := by
  intro h
  have hout : (semantic_search [1, 0] [[(1:ℚ), 0], [1, 0]] 10).1 = [1, 0] := by
    norm_num [semantic_search, similarities, dot, normSq, ratSqrt, fdiv, argsort,
      argR, sGet, fltP, fclass, fval, lastSlice]
  have hs : sGet (similarities [[(1:ℚ), 0], [1, 0]] [1, 0]) 1 =
      sGet (similarities [[(1:ℚ), 0], [1, 0]] [1, 0]) 0 := by
    norm_num [similarities, dot, normSq, ratSqrt, fdiv, sGet]
  rw [rankOrderSpec, hout] at h
  have h10 := (List.pairwise_cons.mp h).1 0 (by simp)
  exact absurd (h10.2 hs) (by omega)

/-- C2 amended: the output is sorted by descending score (with `nan`
greatest, as numpy sorts it) — every later entry scores below or equal to
every earlier one — but the relative order of equal scores is NOT the
ascending index order the claim states: numpy's default quicksort leaves
tie order unspecified, and at the counterexample's input the tied rows
come out in descending index order.  (This sortedness statement is
independent of the model's tie-breaking: it holds for the `[::-1]`
reversal of any ascending argsort of the scores.) -/
theorem c2_amended (q : List ℚ) (m : List (List ℚ)) (k : Nat) :
    ((semantic_search q m k).1).Pairwise fun i j =>
      fltP (sGet (similarities m q) j) (sGet (similarities m q) i) ∨
      sGet (similarities m q) i = sGet (similarities m q) j := by
  show ((lastSlice (argsort (similarities m q)) k).reverse).Pairwise _
  set s := similarities m q with hs
  have hsorted : (lastSlice (argsort s) k).Pairwise (argR s) :=
    (argsort_sorted s).sublist (lastSlice_sublist _ k)
  rw [List.pairwise_reverse]
  refine hsorted.imp ?_
  rintro i j (hlt | ⟨heq, _⟩)
  · exact Or.inl hlt
  · exact Or.inr heq.symm

/-! ## Claim C3: zero-norm behaviour of `semantic_search` -/

/-- The spec's P3, as claimed (for refutation): no `nan`/`inf` in returned
scores, and every zero-norm row scores `-inf`. -/
def zeroNormSpec (q : List ℚ) (m : List (List ℚ)) (k : Nat) : Prop :=
  (∀ sc ∈ (semantic_search q m k).2, sc ≠ .nan) ∧
  (∀ i, i < m.length → normSq (m.getD i []) = 0 →
    sGet (similarities m q) i = .neginf)

/-- C3 counterexample: a zero row produces the score `0 / 0 = nan`, which
is returned (and `nan` sorts first in the descending output, not last):
the claim's "no NaN, zero rows score `-inf`" fails. -/
theorem c3_counterexample : ¬ zeroNormSpec [1] [[0], [1]] 10 := by
  intro h
  have hout : (semantic_search [1] [[(0:ℚ)], [1]] 10).2 = [.nan, .fin 1] := by
    norm_num [semantic_search, similarities, dot, normSq, ratSqrt, fdiv, argsort,
      argR, sGet, fltP, fclass, fval, lastSlice, nan_eq_fin_false, fin_eq_nan_false]
  have := h.1 .nan (by rw [hout]; exact List.mem_cons_self _ _)
  exact this rfl

/-- C3 amended: there is no zero-norm guard: a zero-norm query or a
zero-norm matrix row makes the corresponding score `0 / 0`, i.e. `nan`
(not `-inf`), and `nan` is maximal in the sort order, so such rows rank
first in the descending output rather than last. -/
theorem c3_amended (q : List ℚ) (m : List (List ℚ)) (i : Nat)
    (hi : i < m.length)
    (h : normSq q = 0 ∨ normSq (m.getD i []) = 0) :
    sGet (similarities m q) i = .nan := by
  rw [sGet_similarities m q i hi]
  rcases h with hq | hrow
  · have hdot : dot (m.getD i []) q = 0 :=
      dot_zero_right _ (normSq_eq_zero hq)
    rw [hdot, hq, ratSqrt_zero, mul_zero]
    simp [fdiv]
  · have hdot : dot (m.getD i []) q = 0 :=
      dot_zero_left _ (normSq_eq_zero hrow)
    rw [hdot, hrow, ratSqrt_zero, zero_mul]
    simp [fdiv]

/-- Witness for C3 amended at the concrete zero row `[[0]]`, query `[1]`. -/
theorem c3_amended_witness : sGet (similarities [[(0:ℚ)]] [1]) 0 = .nan :=
  c3_amended [1] [[0]] 0 (by simp) (Or.inr (by norm_num [normSq, dot]))

/-! ## Model of the Lambda handler (`lambda_handler`, lines 96-221)

HTTP/CORS plumbing (the OPTIONS branch and `json.loads` of the POST body)
is outside every claim and is not modelled: the handler takes the parsed
request body directly.  Prompt templating is glue the spec leaves
unspecified; the generation client receives the structured data the
prompt is built from (`GenRequest`).  External effects (the two S3
fetches, the embedding call, the generation call) are recorded in an
ordered trace of `CallEvent`s, and their outcomes are supplied by an
environment `Env` (a `none` outcome models the Python call raising). -/

/-- A corpus item: `title_clean` is accessed with mandatory `['title_clean']`,
`abstract` with `.get('abstract', ...)`, hence optional. -/
structure Paper where
  title_clean : String
  abstract : Option String
deriving DecidableEq

/-- One paper's block of the rag context (line 177-180): position `i+1`,
relevance score, title, and the abstract truncated to 300 characters. -/
structure CtxEntry where
  pos : Nat
  score : FVal
  title : String
  excerpt : String
deriving DecidableEq

/-- One entry of the `papers` field of a rag response (lines 198-205). -/
structure PaperDetail where
  index : Int
  title : String
  score : FVal
deriving DecidableEq

/-- The structured data a generation prompt is built from. -/
inductive GenRequest where
  | explain (p : Paper)
  | compare (ps : List Paper)
  | rag (ctx : List CtxEntry) (query : String)
deriving DecidableEq

/-- An external call made while handling a request, in order. -/
inductive CallEvent where
  | s3GetPapers
  | s3GetEmbeddings
  | embedCall (text : String)
  | geminiCall (req : GenRequest)
deriving DecidableEq

/-- Body of a handler response. -/
inductive RespBody where
  | explanation (text title : String)
  | comparison (text : String)
  | ragAnswer (answer : String) (papers : List PaperDetail)
  | noResults (msg : String)
  | errorMsg (msg : String)
deriving DecidableEq

structure Response where
  statusCode : Nat
  body : RespBody
deriving DecidableEq

/-- Parsed request body; `none` models an absent JSON field.
`paper_indices` is read with `body.get('paper_indices', [])`, hence the
default. -/
structure ReqBody where
  action : Option String := none
  query : Option String := none
  relevant_papers : Option (List Int) := none
  paper_index : Option Int := none
  paper_indices : List Int := []

/-- Outcomes of the external collaborators for one request: `none` models
the underlying Python call raising an exception. -/
structure Env where
  papersFetch : Option (List Paper)
  embeddingsFetch : Option (List (List ℚ))
  embed : String → Option (List ℚ)
  gemini : GenRequest → Option String

/-- `str(e)` of a Python `IndexError` from list subscription. -/
def indexErrMsg : String := "list index out of range"

/-- `str(e)` of the `TypeError` raised by `papers[None]` when
`paper_index` is absent. -/
def noneIndexErrMsg : String := "list indices must be integers or slices, not NoneType"

/-- Message of the exception `call_gemini_api` raises once retries are
exhausted (the HTTP-code-specific variants are abstracted to this one). -/
def geminiErrMsg : String := "Unable to reach AI service. Please check your connection and try again."

/-- Modelled message for the `s3.get_object` embeddings fetch raising. -/
def embeddingsFetchErrMsg : String := "embeddings fetch failed"

/-- Modelled message for `get_embedding`'s network call raising. -/
def embedErrMsg : String := "embedding request failed"

/-- Line 174's user-facing empty-result message. -/
def noResultsMsg : String := "I couldn\x27t find papers relevant to your question. Try different keywords!"

/-- Result of `load_papers`: the corpus, the new value of the module-level
`papers_cache`, and the S3 calls made. -/
structure LoadResult where
  papers : List Paper
  cache : Option (List Paper)
  trace : List CallEvent
deriving DecidableEq

/-- `load_papers` (lines 10-22): the global `papers_cache` is threaded
explicitly.  A warm cache is returned as-is; a cold cache triggers one S3
fetch, and a failed fetch is caught, logged and cached as the empty
corpus. -/
def load_papers (fetch : Option (List Paper)) (cache : Option (List Paper)) :
    LoadResult :=
  match cache with
  | some ps => ⟨ps, some ps, []⟩
  | none =>
    match fetch with
    | some ps => ⟨ps, some ps, [.s3GetPapers]⟩
    | none => ⟨[], some [], [.s3GetPapers]⟩

/-- Python list subscription `l[i]`: non-negative indices must be below
the length, negative indices wrap from the end, anything else raises
`IndexError` (`none`). -/
def pyGet {α : Type} (l : List α) (i : Int) : Option α :=
  if 0 ≤ i then l.get? i.toNat
  else if (-i).toNat ≤ l.length then l.get? (l.length - (-i).toNat)
  else none

/-- Error-propagating map, mirroring a Python loop or list comprehension
that can raise on any element. -/
def exMap {α β : Type} (f : α → Except String β) : List α → Except String (List β)
  | [] => .ok []
  | a :: as =>
    match f a with
    | .error e => .error e
    | .ok b =>
      match exMap f as with
      | .error e => .error e
      | .ok bs => .ok (b :: bs)

/-- `papers[idx]` inside a loop body: raises `IndexError` out of range. -/
def pyIndex (papers : List Paper) (i : Int) : Except String Paper :=
  match pyGet papers i with
  | some p => .ok p
  | none => .error indexErrMsg

/-- A loop `for i, idx in enumerate(...)` over selected indices that reads
`papers[idx]` and `scores[i]` and can raise `IndexError` on either: the
position counter `i` starts at 0 and advances with the loop. -/
def pyEnumMap {γ : Type} (papers : List Paper) (scores : List FVal)
    (f : Nat → Int → Paper → FVal → γ) :
    Nat → List Int → Except String (List γ)
  | _, [] => .ok []
  | i, idx :: rest =>
    match pyGet papers idx with
    | none => .error indexErrMsg
    | some paper =>
      match scores.get? i with
      | none => .error indexErrMsg
      | some sc =>
        match pyEnumMap papers scores f (i + 1) rest with
        | .error e => .error e
        | .ok rs => .ok (f i idx paper sc :: rs)

/-- One block of the rag context (lines 177-180): position `i+1`, score,
title, abstract truncated to 300 characters. -/
def ctxF : Nat → Int → Paper → FVal → CtxEntry := fun i _ paper sc =>
  ⟨i + 1, sc, paper.title_clean, (paper.abstract.getD "").take 300⟩

/-- One entry of `paper_details` (lines 198-205). -/
def detailF : Nat → Int → Paper → FVal → PaperDetail := fun _ idx paper sc =>
  ⟨idx, paper.title_clean, sc⟩

/-- Context assembly (lines 177-180): `for i, idx in enumerate(indices[:5])`,
one block per selected paper from `papers[idx]` and `scores[i]`. -/
def buildContext (papers : List Paper) (indices : List Int) (scores : List FVal) :
    Except String (List CtxEntry) :=
  pyEnumMap papers scores ctxF 0 (indices.take 5)

/-- `paper_details` assembly (lines 198-205):
`for i, idx in enumerate(indices[:5])`, index, title and score per paper. -/
def buildDetails (papers : List Paper) (indices : List Int) (scores : List FVal) :
    Except String (List PaperDetail) :=
  pyEnumMap papers scores detailF 0 (indices.take 5)

/-- Index/score selection of `rag_search` (lines 155-168): the explicit
path iff `'relevant_papers' in body and body['relevant_papers']` (present
and truthy, i.e. a non-empty list), otherwise the semantic path
(embeddings fetch, query embedding, `semantic_search` with `top_k=10`). -/
def ragBranch (env : Env) (body : ReqBody) (query : String) :
    Except String (List Int × List FVal) × List CallEvent :=
  match body.relevant_papers with
  | some (i0 :: rest) =>
    let indices := (i0 :: rest).take 5
    (.ok (indices, indices.map fun _ => .fin 1), [])
  | _ =>
    match env.embeddingsFetch with
    | none => (.error embeddingsFetchErrMsg, [.s3GetEmbeddings])
    | some paper_embeddings =>
      match env.embed query with
      | none => (.error embedErrMsg, [.s3GetEmbeddings, .embedCall query])
      | some query_embedding =>
        let res := semantic_search query_embedding paper_embeddings 10
        (.ok (res.1.map Int.ofNat, res.2),
          [.s3GetEmbeddings, .embedCall query])

/-- The `rag_search` action (lines 145-214), after `load_papers`. -/
def rag_search (env : Env) (papers : List Paper) (body : ReqBody) :
    Response × List CallEvent :=
  let query := body.query.getD ""
  if query = "" then
    (⟨400, .errorMsg "Query is required"⟩, [])
  else
    match ragBranch env body query with
    | (.error e, t) => (⟨500, .errorMsg e⟩, t)
    | (.ok (indices, scores), t) =>
      if indices = [] then
        (⟨200, .noResults noResultsMsg⟩, t)
      else
        match buildContext papers indices scores with
        | .error e => (⟨500, .errorMsg e⟩, t)
        | .ok ctx =>
          match env.gemini (.rag ctx query) with
          | none => (⟨500, .errorMsg geminiErrMsg⟩, t ++ [.geminiCall (.rag ctx query)])
          | some answer =>
            match buildDetails papers indices scores with
            | .error e => (⟨500, .errorMsg e⟩, t ++ [.geminiCall (.rag ctx query)])
            | .ok pds =>
              (⟨200, .ragAnswer answer pds⟩, t ++ [.geminiCall (.rag ctx query)])

/-- `lambda_handler` (lines 96-221) without the OPTIONS/CORS branch: loads
the corpus, dispatches on `action`, and converts any raised exception into
a 500 response with `str(e)` at the boundary (lines 217-221).  Returns the
response, the ordered trace of external calls, and the new cache. -/
def lambda_handler (env : Env) (body : ReqBody) (cache : Option (List Paper)) :
    Response × List CallEvent × Option (List Paper) :=
  let L := load_papers env.papersFetch cache
  let papers := L.papers
  if body.action = some "explain_paper" then
    match body.paper_index with
    | none => (⟨500, .errorMsg noneIndexErrMsg⟩, L.trace, L.cache)
    | some idx =>
      match pyGet papers idx with
      | none => (⟨500, .errorMsg indexErrMsg⟩, L.trace, L.cache)
      | some paper =>
        match env.gemini (.explain paper) with
        | none =>
          (⟨500, .errorMsg geminiErrMsg⟩,
            L.trace ++ [.geminiCall (.explain paper)], L.cache)
        | some ex =>
          (⟨200, .explanation ex paper.title_clean⟩,
            L.trace ++ [.geminiCall (.explain paper)], L.cache)
  else if body.action = some "compare_papers" then
    match exMap (pyIndex papers) body.paper_indices with
    | .error e => (⟨500, .errorMsg e⟩, L.trace, L.cache)
    | .ok ps =>
      match env.gemini (.compare ps) with
      | none =>
        (⟨500, .errorMsg geminiErrMsg⟩,
          L.trace ++ [.geminiCall (.compare ps)], L.cache)
      | some c =>
        (⟨200, .comparison c⟩, L.trace ++ [.geminiCall (.compare ps)], L.cache)
  else if body.action = some "rag_search" then
    let r := rag_search env papers body
    (r.1, L.trace ++ r.2, L.cache)
  else
    (⟨400, .errorMsg "Invalid action"⟩, L.trace, L.cache)

/-- The `papers` list of a successful rag response (empty otherwise). -/
def respPapers : Response → List PaperDetail
  | ⟨_, .ragAnswer _ pds⟩ => pds
  | _ => []

/-- The context of a rag generation call, if the event is one. -/
def ragCtxOf : CallEvent → Option (List CtxEntry)
  | .geminiCall (.rag ctx _) => some ctx
  | _ => none

theorem pyGet_nonneg {α : Type} (l : List α) (i : Int) (h : 0 ≤ i) :
    pyGet l i = l.get? i.toNat := by
  unfold pyGet
  rw [if_pos h]

theorem pyGet_nil {α : Type} (i : Int) : pyGet ([] : List α) i = none := by
  unfold pyGet
  split
  · simp
  · split
    · simp
    · rfl

theorem pyGet_oob {α : Type} (l : List α) (i : Int) (h0 : 0 ≤ i)
    (h : l.length ≤ i.toNat) : pyGet l i = none := by
  rw [pyGet_nonneg l i h0]
  exact List.get?_eq_none.mpr h

theorem load_papers_trace (f c : Option (List Paper)) :
    (load_papers f c).trace = [] ∨ (load_papers f c).trace = [CallEvent.s3GetPapers] := by
  cases c with
  | some ps => exact Or.inl rfl
  | none => cases f with
    | some ps => exact Or.inr rfl
    | none => exact Or.inr rfl

theorem pyEnumMap_ok_length {γ : Type} (papers : List Paper) (scores : List FVal)
    (f : Nat → Int → Paper → FVal → γ) :
    ∀ (l : List Int) (i : Nat) (rs : List γ),
      pyEnumMap papers scores f i l = .ok rs → rs.length = l.length := by
  intro l
  induction l with
  | nil =>
    intro i rs h
    rw [pyEnumMap] at h
    cases h
    rfl
  | cons idx rest ih =>
    intro i rs h
    rw [pyEnumMap] at h
    cases hpg : pyGet papers idx with
    | none => rw [hpg] at h; cases h
    | some paper =>
      rw [hpg] at h
      cases hsc : scores.get? i with
      | none => rw [hsc] at h; cases h
      | some sc =>
        rw [hsc] at h
        cases hrec : pyEnumMap papers scores f (i + 1) rest with
        | error e => rw [hrec] at h; cases h
        | ok rs2 =>
          rw [hrec] at h
          cases h
          simp [ih (i + 1) rs2 hrec]

theorem pyEnumMap_ok_of_valid {γ : Type} (papers : List Paper) (scores : List FVal)
    (f : Nat → Int → Paper → FVal → γ) :
    ∀ (l : List Int) (i : Nat),
      (∀ idx ∈ l, 0 ≤ idx ∧ idx.toNat < papers.length) →
      i + l.length ≤ scores.length →
      ∃ rs, pyEnumMap papers scores f i l = .ok rs := by
  intro l
  induction l with
  | nil => exact fun i _ _ => ⟨[], rfl⟩
  | cons idx rest ih =>
    intro i hvalid hs
    obtain ⟨h0, hlt⟩ := hvalid idx (List.mem_cons_self idx rest)
    have hpg : pyGet papers idx = some (papers.get ⟨idx.toNat, hlt⟩) := by
      rw [pyGet_nonneg papers idx h0]
      exact List.get?_eq_get hlt
    have hi : i < scores.length := by
      simp only [List.length_cons] at hs
      omega
    have hsc : scores.get? i = some (scores.get ⟨i, hi⟩) := List.get?_eq_get hi
    obtain ⟨rs, hrs⟩ := ih (i + 1)
      (fun j hj => hvalid j (List.mem_cons_of_mem idx hj))
      (by simp only [List.length_cons] at hs; omega)
    exact ⟨_, by rw [pyEnumMap, hpg, hsc, hrs]⟩

theorem pyEnumMap_detail_const (papers : List Paper) (scores : List FVal) :
    ∀ (l : List Int) (i : Nat),
      (∀ idx ∈ l, 0 ≤ idx ∧ idx.toNat < papers.length) →
      (∀ j, j < i + l.length → scores.get? j = some (.fin 1)) →
      ∃ pds, pyEnumMap papers scores detailF i l = .ok pds ∧
        pds.map PaperDetail.index = l ∧ ∀ d ∈ pds, d.score = .fin 1 := by
  intro l
  induction l with
  | nil => exact fun i _ _ => ⟨[], rfl, rfl, by simp⟩
  | cons idx rest ih =>
    intro i hvalid hsc
    obtain ⟨h0, hlt⟩ := hvalid idx (List.mem_cons_self idx rest)
    have hpg : pyGet papers idx = some (papers.get ⟨idx.toNat, hlt⟩) := by
      rw [pyGet_nonneg papers idx h0]
      exact List.get?_eq_get hlt
    have hi : scores.get? i = some (.fin 1) := by
      refine hsc i ?_
      simp only [List.length_cons]
      omega
    obtain ⟨pds, hpds, hmap, hall⟩ := ih (i + 1)
      (fun j hj => hvalid j (List.mem_cons_of_mem idx hj))
      (fun j hj => hsc j (by simp only [List.length_cons]; omega))
    refine ⟨_, by rw [pyEnumMap, hpg, hi, hpds], ?_, ?_⟩
    · simp [detailF, hmap]
    · intro d hd
      rcases List.mem_cons.mp hd with rfl | hd
      · rfl
      · exact hall d hd

/-- On the explicit path (non-empty `relevant_papers`, non-empty query,
all selected indices valid, generation succeeding) `rag_search` returns a
200 rag response built from the first five supplied indices with score 1.0
each, and its only external call is the generation call. -/
theorem rag_search_explicit (env : Env) (papers : List Paper) (body : ReqBody)
    (q : String) (i0 : Int) (rest : List Int)
    (hq : body.query = some q) (hqne : q ≠ "")
    (hrel : body.relevant_papers = some (i0 :: rest))
    (hvalid : ∀ i ∈ (i0 :: rest).take 5, 0 ≤ i ∧ i.toNat < papers.length)
    (hgem : ∀ r, (env.gemini r).isSome) :
    ∃ ctx ans pds,
      rag_search env papers body =
        (⟨200, .ragAnswer ans pds⟩, [.geminiCall (.rag ctx q)]) ∧
      pds.map PaperDetail.index = (i0 :: rest).take 5 ∧
      (∀ d ∈ pds, d.score = .fin 1) ∧ ctx.length ≤ 5 := by
  have htt : List.take 5 (List.take 5 (i0 :: rest)) = List.take 5 (i0 :: rest) := by
    rw [List.take_take]
    norm_num
  have hsc : ∀ j, j < 0 + (List.take 5 (i0 :: rest)).length →
      (List.map (fun _ => FVal.fin 1) (List.take 5 (i0 :: rest))).get? j =
        some (.fin 1) := by
    intro j hj
    have hjl : j < (List.take 5 (i0 :: rest)).length := by omega
    rw [List.get?_map, List.get?_eq_get hjl]
    rfl
  obtain ⟨ctx, hctx⟩ := pyEnumMap_ok_of_valid papers
    (List.map (fun _ => FVal.fin 1) (List.take 5 (i0 :: rest))) ctxF
    (List.take 5 (i0 :: rest)) 0 hvalid (by rw [List.length_map]; omega)
  obtain ⟨pds, hpds, hmap, hall⟩ := pyEnumMap_detail_const papers
    (List.map (fun _ => FVal.fin 1) (List.take 5 (i0 :: rest)))
    (List.take 5 (i0 :: rest)) 0 hvalid hsc
  obtain ⟨ans, hans⟩ := Option.isSome_iff_exists.mp (hgem (.rag ctx q))
  have hctxlen : ctx.length ≤ 5 := by
    have hl := pyEnumMap_ok_length papers _ ctxF _ 0 ctx hctx
    rw [hl, List.length_take]
    omega
  refine ⟨ctx, ans, pds, ?_, hmap, hall, hctxlen⟩
  have hne : List.take 5 (i0 :: rest) ≠ [] := by
    simp [List.take_eq_nil_iff]
  simp only [rag_search, ragBranch, hq, Option.getD_some, if_neg hqne, hrel]
  simp only [buildContext, buildDetails, htt, if_neg hne, hctx, hpds, hans,
    List.nil_append]

/-! ## Claim C4: explicit path bypasses the Embedding Provider -/

def ps6 : List Paper :=
  [⟨"p0", none⟩, ⟨"p1", none⟩, ⟨"p2", none⟩, ⟨"p3", none⟩, ⟨"p4", none⟩, ⟨"p5", none⟩]

def env6 : Env := ⟨some ps6, none, fun _ => none, fun _ => some "ans"⟩

def body6 : ReqBody :=
  { action := some "rag_search", query := some "q",
    relevant_papers := some [0, 1, 2, 3, 4, 5] }

/-- The spec's P4 + Scenario B, as claimed (for refutation): with a
non-empty `relevant_papers`, no embedding call is made and the result
indices are exactly the caller-supplied list in caller order, each scored
1.0. -/
def explicitPathSpec (env : Env) (body : ReqBody) (cache : Option (List Paper)) : Prop :=
  (∀ t, CallEvent.embedCall t ∉ (lambda_handler env body cache).2.1) ∧
  (respPapers (lambda_handler env body cache).1).map PaperDetail.index =
    body.relevant_papers.getD [] ∧
  ∀ d ∈ respPapers (lambda_handler env body cache).1, d.score = .fin 1

/-- C4 counterexample: six caller-supplied indices are truncated to the
first five (`[:5]`, line 156), so the result indices are `[0,1,2,3,4]`,
not "exactly the caller-supplied indices" `[0,1,2,3,4,5]`. -/
theorem c4_counterexample : ¬ explicitPathSpec env6 body6 none :=
  fun h => absurd h.2.1 (by decide)

/-- C4 amended: when a non-empty `relevant_papers` list is supplied (with
a non-empty query, in-range selected indices and a successful generation
call), the Embedding Provider is never invoked and the result indices are
the FIRST FIVE caller-supplied indices in caller order, each with score
1.0 — the supplied list is truncated to 5 before use. -/
theorem c4_amended (env : Env) (cache : Option (List Paper)) (body : ReqBody)
    (q : String) (l : List Int)
    (hq : body.query = some q) (hqne : q ≠ "")
    (hrel : body.relevant_papers = some l) (hlne : l ≠ [])
    (hact : body.action = some "rag_search")
    (hvalid : ∀ i ∈ l.take 5,
      0 ≤ i ∧ i.toNat < (load_papers env.papersFetch cache).papers.length)
    (hgem : ∀ r, (env.gemini r).isSome) :
    (lambda_handler env body cache).1.statusCode = 200 ∧
    (respPapers (lambda_handler env body cache).1).map PaperDetail.index = l.take 5 ∧
    (∀ d ∈ respPapers (lambda_handler env body cache).1, d.score = .fin 1) ∧
    (∀ t, CallEvent.embedCall t ∉ (lambda_handler env body cache).2.1) ∧
    CallEvent.s3GetEmbeddings ∉ (lambda_handler env body cache).2.1 := by
  obtain ⟨i0, rest, rfl⟩ := List.exists_cons_of_ne_nil hlne
  obtain ⟨ctx, ans, pds, hrs, hmap, hall, _⟩ :=
    rag_search_explicit env (load_papers env.papersFetch cache).papers body q i0 rest
      hq hqne hrel hvalid hgem
  have hlh : lambda_handler env body cache =
      (⟨200, .ragAnswer ans pds⟩,
        (load_papers env.papersFetch cache).trace ++ [.geminiCall (.rag ctx q)],
        (load_papers env.papersFetch cache).cache) := by
    simp only [lambda_handler, hact]
    rw [if_neg (show ¬ (some "rag_search" = some "explain_paper") from by decide),
      if_neg (show ¬ (some "rag_search" = some "compare_papers") from by decide),
      if_true, hrs]
  rw [hlh]
  refine ⟨rfl, ?_, ?_, ?_, ?_⟩
  · simpa [respPapers] using hmap
  · intro d hd
    exact hall d (by simpa [respPapers] using hd)
  · intro t ht
    rcases load_papers_trace env.papersFetch cache with h | h <;>
      simp [h] at ht
  · intro ht
    rcases load_papers_trace env.papersFetch cache with h | h <;>
      simp [h] at ht

/-- Witness for C4 amended: six valid indices supplied, query `"q"`,
generation succeeding. -/
theorem c4_amended_witness :
    (lambda_handler env6 body6 none).1.statusCode = 200 ∧
    (respPapers (lambda_handler env6 body6 none).1).map PaperDetail.index =
      ([0, 1, 2, 3, 4, 5] : List Int).take 5 ∧
    (∀ d ∈ respPapers (lambda_handler env6 body6 none).1, d.score = .fin 1) ∧
    (∀ t, CallEvent.embedCall t ∉ (lambda_handler env6 body6 none).2.1) ∧
    CallEvent.s3GetEmbeddings ∉ (lambda_handler env6 body6 none).2.1 :=
  c4_amended env6 none body6 "q" [0, 1, 2, 3, 4, 5] rfl (by decide) rfl (by decide)
    rfl (by decide) (fun _ => rfl)

/-! ## Claim C5: out-of-range caller-supplied indices -/

def ps1 : List Paper := [⟨"p0", none⟩]

def envC5 : Env := ⟨some ps1, none, fun _ => none, fun _ => some "ans"⟩

/-- The spec's `IndexOutOfRange` policy, as claimed (for refutation), at
concrete inputs over a 1-paper corpus: index 5 is rejected as
`InvalidInput` (4xx) in the single-item explain context, and dropped
silently (non-fatal 200 partial result) in the batch compare context. -/
def indexPolicySpec : Prop :=
  (lambda_handler envC5 ⟨some "explain_paper", none, none, some 5, []⟩ none).1.statusCode
    = 400 ∧
  (lambda_handler envC5 ⟨some "compare_papers", none, none, none, [0, 5]⟩ none).1.statusCode
    = 200

/-- C5 counterexample: the code validates nothing — an out-of-range index
raises `IndexError`, which the request boundary converts to a 500, in the
explain context (500, not 400) and in the compare context (500 fatal, not
a partial 200). -/
theorem c5_counterexample : ¬ indexPolicySpec := by
  unfold indexPolicySpec
  decide

/-- C5 amended: an out-of-range (non-negative) caller-supplied index is
neither dropped nor rejected as `InvalidInput`: in all three contexts —
explain, compare, and explicit rag retrieval — `papers[idx]` raises
`IndexError`, surfaced as a 500 response with
"list index out of range". -/
theorem c5_amended (env : Env) (cache : Option (List Paper)) (idx : Int)
    (hpos : 0 ≤ idx)
    (hoob : (load_papers env.papersFetch cache).papers.length ≤ idx.toNat) :
    (lambda_handler env ⟨some "explain_paper", none, none, some idx, []⟩ cache).1 =
      ⟨500, .errorMsg indexErrMsg⟩ ∧
    (lambda_handler env ⟨some "compare_papers", none, none, none, [idx]⟩ cache).1 =
      ⟨500, .errorMsg indexErrMsg⟩ ∧
    (lambda_handler env ⟨some "rag_search", some "q", some [idx], none, []⟩ cache).1 =
      ⟨500, .errorMsg indexErrMsg⟩ := by
  have hget : pyGet (load_papers env.papersFetch cache).papers idx = none :=
    pyGet_oob _ idx hpos hoob
  refine ⟨?_, ?_, ?_⟩
  · simp [lambda_handler, hget]
  · simp [lambda_handler, exMap, pyIndex, hget]
  · simp [lambda_handler, rag_search, ragBranch, buildContext, pyEnumMap, hget]

/-- Witness for C5 amended: index 5 against a 1-paper corpus. -/
theorem c5_amended_witness :
    (lambda_handler envC5 ⟨some "explain_paper", none, none, some 5, []⟩ none).1 =
      ⟨500, .errorMsg indexErrMsg⟩ ∧
    (lambda_handler envC5 ⟨some "compare_papers", none, none, none, [5]⟩ none).1 =
      ⟨500, .errorMsg indexErrMsg⟩ ∧
    (lambda_handler envC5 ⟨some "rag_search", some "q", some [5], none, []⟩ none).1 =
      ⟨500, .errorMsg indexErrMsg⟩ :=
  c5_amended envC5 none 5 (by decide) (by decide)

/-! ## Claim C6: matrix row count vs corpus size -/

def psC6 : List Paper := [⟨"p0", none⟩, ⟨"p1", none⟩]

def envC6 : Env := ⟨some psC6, some [[1]], fun _ => some [1], fun _ => some "ans"⟩

def bodyC6 : ReqBody := ⟨some "rag_search", some "q", none, none, []⟩

/-- The spec's P5, as claimed (for refutation), at a concrete input with a
1-row matrix against a 2-paper corpus: loading fails (a non-200
`DataUnavailable` error) rather than proceeding to the embedding call. -/
def dimMismatchSpec : Prop :=
  (lambda_handler envC6 bodyC6 none).1.statusCode ≠ 200 ∧
  ∀ t, CallEvent.embedCall t ∉ (lambda_handler envC6 bodyC6 none).2.1

/-- C6 counterexample: no row-count validation exists — with 1 matrix row
and 2 papers the request succeeds (200) after calling the embedding
provider, silently serving results from the misaligned matrix. -/
theorem c6_counterexample : ¬ dimMismatchSpec := by
  intro h
  have h200 : (lambda_handler envC6 bodyC6 none).1.statusCode = 200 := by
    norm_num [lambda_handler, rag_search, ragBranch, buildContext, buildDetails, pyEnumMap,
      pyGet, semantic_search, similarities, dot, normSq, ratSqrt, fdiv, argsort,
      argR, sGet, fltP, fclass, fval, lastSlice, load_papers, envC6, bodyC6,
      psC6, ctxF, detailF]
    decide
  exact h.1 h200

/-- On the semantic path (non-empty query, no explicit indices, embeddings
fetch and embedding call succeeding) `rag_search`'s trace starts with the
embeddings fetch and the embedding call, whatever happens downstream. -/
theorem rag_search_semantic_trace (env : Env) (papers : List Paper) (body : ReqBody)
    (q : String) (M : List (List ℚ)) (v : List ℚ)
    (hq : body.query = some q) (hqne : q ≠ "")
    (hrel : body.relevant_papers = none ∨ body.relevant_papers = some [])
    (hemb : env.embeddingsFetch = some M)
    (hvec : env.embed q = some v) :
    ∃ t, (rag_search env papers body).2 =
      [CallEvent.s3GetEmbeddings, CallEvent.embedCall q] ++ t := by
  rcases hrel with h | h <;>
  · simp only [rag_search, ragBranch, hq, Option.getD_some, if_neg hqne, h, hemb, hvec]
    repeat' split
    all_goals exact ⟨_, rfl⟩

/-- C6 amended: the handler performs no row-count validation at all: even
when the matrix row count differs from the corpus size, it proceeds —
fetching the embeddings and calling the Embedding Provider — instead of
failing with a data error at load time.  (Mismatch then surfaces either as
a silently misaligned 200 result or as a 500 `IndexError`, depending on
which rows rank highest.) -/
theorem c6_amended (env : Env) (cache : Option (List Paper)) (body : ReqBody)
    (q : String) (M : List (List ℚ)) (v : List ℚ)
    (hact : body.action = some "rag_search")
    (hq : body.query = some q) (hqne : q ≠ "")
    (hrel : body.relevant_papers = none ∨ body.relevant_papers = some [])
    (hemb : env.embeddingsFetch = some M)
    (hvec : env.embed q = some v)
    (_hmis : M.length ≠ (load_papers env.papersFetch cache).papers.length) :
    CallEvent.s3GetEmbeddings ∈ (lambda_handler env body cache).2.1 ∧
    CallEvent.embedCall q ∈ (lambda_handler env body cache).2.1 := by
  obtain ⟨t, ht⟩ := rag_search_semantic_trace env
    (load_papers env.papersFetch cache).papers body q M v hq hqne hrel hemb hvec
  have hlh : (lambda_handler env body cache).2.1 =
      (load_papers env.papersFetch cache).trace ++
        (rag_search env (load_papers env.papersFetch cache).papers body).2 := by
    simp only [lambda_handler, hact]
    rw [if_neg (by decide), if_neg (by decide), if_true]
  rw [hlh, ht]
  constructor <;> simp

/-- Witness for C6 amended: 1-row matrix, 2-paper corpus. -/
theorem c6_amended_witness :
    CallEvent.s3GetEmbeddings ∈ (lambda_handler envC6 bodyC6 none).2.1 ∧
    CallEvent.embedCall "q" ∈ (lambda_handler envC6 bodyC6 none).2.1 :=
  c6_amended envC6 none bodyC6 "q" [[1]] [1] rfl rfl (by decide) (Or.inl rfl)
    rfl rfl (by decide)

/-! ## Claim C7: empty query rejection on the semantic path -/

def bodyC7 : ReqBody := ⟨some "rag_search", some "", none, none, []⟩

/-- Scenario C, as claimed (for refutation): an empty query is rejected as
`InvalidInput` (400) with NO network call of any kind made. -/
def queryRejectSpec (env : Env) (body : ReqBody) (cache : Option (List Paper)) : Prop :=
  (lambda_handler env body cache).1.statusCode = 400 ∧
  (lambda_handler env body cache).2.1 = []

/-- C7 counterexample: with a cold cache, `load_papers()` runs — and makes
its S3 corpus fetch — before the action dispatch, so the empty query is
rejected only after a network call has already happened. -/
theorem c7_counterexample : ¬ queryRejectSpec envC5 bodyC7 none := by
  unfold queryRejectSpec
  decide

/-- C7 amended: an empty query on the semantic path is rejected as 400
"Query is required" before the Embedding Provider, the embeddings fetch or
the generation client is invoked; the corpus S3 fetch, however, can
already have happened (it precedes the action dispatch on a cold cache). -/
theorem c7_amended (env : Env) (cache : Option (List Paper)) (body : ReqBody)
    (hact : body.action = some "rag_search")
    (hq : body.query.getD "" = "") :
    (lambda_handler env body cache).1 = ⟨400, .errorMsg "Query is required"⟩ ∧
    (∀ t, CallEvent.embedCall t ∉ (lambda_handler env body cache).2.1) ∧
    CallEvent.s3GetEmbeddings ∉ (lambda_handler env body cache).2.1 ∧
    (∀ r, CallEvent.geminiCall r ∉ (lambda_handler env body cache).2.1) := by
  have hr : rag_search env (load_papers env.papersFetch cache).papers body =
      (⟨400, .errorMsg "Query is required"⟩, []) := by
    simp only [rag_search, hq, if_true]
  have hlh : lambda_handler env body cache =
      (⟨400, .errorMsg "Query is required"⟩,
        (load_papers env.papersFetch cache).trace,
        (load_papers env.papersFetch cache).cache) := by
    simp only [lambda_handler, hact]
    rw [if_neg (by decide), if_neg (by decide), if_true, hr]
    simp
  rw [hlh]
  refine ⟨rfl, ?_, ?_, ?_⟩
  · intro t ht
    rcases load_papers_trace env.papersFetch cache with h | h <;> simp [h] at ht
  · intro ht
    rcases load_papers_trace env.papersFetch cache with h | h <;> simp [h] at ht
  · intro r hr2
    rcases load_papers_trace env.papersFetch cache with h | h <;> simp [h] at hr2

/-- Witness for C7 amended: empty query, cold cache. -/
theorem c7_amended_witness :
    (lambda_handler envC5 bodyC7 none).1 = ⟨400, .errorMsg "Query is required"⟩ ∧
    (∀ t, CallEvent.embedCall t ∉ (lambda_handler envC5 bodyC7 none).2.1) ∧
    CallEvent.s3GetEmbeddings ∉ (lambda_handler envC5 bodyC7 none).2.1 ∧
    (∀ r, CallEvent.geminiCall r ∉ (lambda_handler envC5 bodyC7 none).2.1) :=
  c7_amended envC5 none bodyC7 rfl rfl

/-! ## Claim C8: behaviour after a failed corpus load -/

def envC8 : Env := ⟨none, some [[1]], fun _ => some [1], fun _ => some "ans"⟩

def bodyC8 : ReqBody := ⟨some "rag_search", some "q", none, none, []⟩

/-- Scenario D, as claimed (for refutation): when the corpus failed to
load, a search request gets a "no data" classified error — in particular
NOT an index-out-of-range fault. -/
def noDataSpec (env : Env) (body : ReqBody) (cache : Option (List Paper)) : Prop :=
  env.papersFetch = none →
  (lambda_handler env body cache).1.body ≠ RespBody.errorMsg indexErrMsg

theorem buildContext_nil_papers (indices : List Int) (scores : List FVal)
    (h : indices ≠ []) :
    buildContext [] indices scores = .error indexErrMsg := by
  obtain ⟨j, t, rfl⟩ := List.exists_cons_of_ne_nil h
  simp only [buildContext]
  rw [show (5 : Nat) = 4 + 1 from rfl, List.take_succ_cons, pyEnumMap, pyGet_nil]

/-- C8 counterexample: corpus load fails, embeddings still load, so the
search ranks rows of the matrix and then hits `papers[idx]` on the empty
corpus: the result is a 500 "list index out of range" — precisely the
index-out-of-range fault the claim rules out, with no `DataUnavailable`
classification anywhere. -/
theorem c8_counterexample : ¬ noDataSpec envC8 bodyC8 none := by
  intro h
  have h500 : (lambda_handler envC8 bodyC8 none).1 = ⟨500, .errorMsg indexErrMsg⟩ := by
    norm_num [lambda_handler, rag_search, ragBranch, buildContext, buildDetails, pyEnumMap,
      pyGet, semantic_search, similarities, dot, normSq, ratSqrt, fdiv, argsort,
      argR, sGet, fltP, fclass, fval, lastSlice, load_papers, envC8, bodyC8,
      ctxF, detailF]
    decide
  exact h rfl (by rw [h500])

/-- C8 amended: a failed corpus load degrades to the empty corpus and the
handler does not crash — every search still gets a structured response —
but with a non-empty embedding matrix the semantic path then fails at
context assembly with a generic 500 "list index out of range", not a
distinct `DataUnavailable` / "no data" classification. -/
theorem c8_amended (env : Env) (body : ReqBody)
    (q : String) (M : List (List ℚ)) (v : List ℚ)
    (hfail : env.papersFetch = none)
    (hact : body.action = some "rag_search")
    (hq : body.query = some q) (hqne : q ≠ "")
    (hrel : body.relevant_papers = none ∨ body.relevant_papers = some [])
    (hemb : env.embeddingsFetch = some M) (hM : M ≠ [])
    (hvec : env.embed q = some v) :
    (lambda_handler env body none).1 = ⟨500, .errorMsg indexErrMsg⟩ := by
  have hpl : (load_papers env.papersFetch none).papers = [] := by
    simp [load_papers, hfail]
  have hne : (semantic_search v M 10).1.map Int.ofNat ≠ [] := by
    intro hcon
    have hl := congrArg List.length hcon
    rw [List.length_map, semantic_search_len] at hl
    have hp : 0 < M.length := List.length_pos.mpr hM
    rw [if_neg (by decide)] at hl
    simp only [List.length_nil] at hl
    omega
  have hr : rag_search env [] body = (⟨500, .errorMsg indexErrMsg⟩,
      [CallEvent.s3GetEmbeddings, CallEvent.embedCall q]) := by
    rcases hrel with h | h <;>
    · simp only [rag_search, ragBranch, hq, Option.getD_some, if_neg hqne, h, hemb, hvec]
      rw [if_neg hne, buildContext_nil_papers _ _ hne]
  have hlh : lambda_handler env body none =
      ((rag_search env (load_papers env.papersFetch none).papers body).1,
        (load_papers env.papersFetch none).trace ++
          (rag_search env (load_papers env.papersFetch none).papers body).2,
        (load_papers env.papersFetch none).cache) := by
    simp only [lambda_handler, hact]
    rw [if_neg (by decide), if_neg (by decide), if_true]
  rw [hlh, hpl, hr]

/-- Witness for C8 amended: failed corpus fetch, 1-row matrix. -/
theorem c8_amended_witness :
    (lambda_handler envC8 bodyC8 none).1 = ⟨500, .errorMsg indexErrMsg⟩ :=
  c8_amended envC8 bodyC8 "q" [[1]] [1] rfl rfl rfl (by decide) (Or.inl rfl)
    rfl (by decide) rfl

/-! ## Claim C9: `load_papers` memoization and failure behaviour -/

/-- C9: `load_papers` is idempotent and memoized for the process lifetime —
a warm cache is returned unchanged with no S3 call; any second call
returns the first call's corpus without re-fetching (its trace is empty),
even if the underlying store changed in between; and a failed fetch is
caught, yielding the empty corpus (the model is total: nothing is raised
to the caller). -/
theorem c9_load_papers :
    (∀ fetch ps, load_papers fetch (some ps) = ⟨ps, some ps, []⟩) ∧
    (∀ f1 f2, (load_papers f2 (load_papers f1 none).cache).papers =
        (load_papers f1 none).papers ∧
      (load_papers f2 (load_papers f1 none).cache).trace = []) ∧
    load_papers none none = ⟨[], some [], [.s3GetPapers]⟩ := by
  refine ⟨fun fetch ps => rfl, fun f1 f2 => ?_, rfl⟩
  cases f1 <;> exact ⟨rfl, rfl⟩

/-! ## Claim C10: at most 5 papers in results and context -/

theorem ragBranch_trace (env : Env) (body : ReqBody) (query : String) :
    (ragBranch env body query).2 = [] ∨
    (ragBranch env body query).2 = [.s3GetEmbeddings] ∨
    (ragBranch env body query).2 = [.s3GetEmbeddings, .embedCall query] := by
  unfold ragBranch
  repeat' split
  all_goals simp

theorem rag_search_bounded (env : Env) (papers : List Paper) (body : ReqBody) :
    (∀ ctx ∈ ((rag_search env papers body).2).filterMap ragCtxOf, ctx.length ≤ 5) ∧
    (respPapers (rag_search env papers body).1).length ≤ 5 := by
  have hfm : ((ragBranch env body (body.query.getD "")).2).filterMap ragCtxOf = [] := by
    rcases ragBranch_trace env body (body.query.getD "") with h | h | h <;> rw [h] <;> rfl
  have hctxlen : ∀ (indices : List Int) (scores : List FVal) (ctx : List CtxEntry),
      buildContext papers indices scores = .ok ctx → ctx.length ≤ 5 := by
    intro indices scores ctx hc
    have := pyEnumMap_ok_length papers scores ctxF _ 0 ctx hc
    rw [this, List.length_take]
    omega
  have hpdslen : ∀ (indices : List Int) (scores : List FVal) (pds : List PaperDetail),
      buildDetails papers indices scores = .ok pds → pds.length ≤ 5 := by
    intro indices scores pds hc
    have := pyEnumMap_ok_length papers scores detailF _ 0 pds hc
    rw [this, List.length_take]
    omega
  simp only [rag_search]
  split
  · exact ⟨by simp, by simp [respPapers]⟩
  · split
    · next e t heq =>
      have ht : t.filterMap ragCtxOf = [] := by
        rw [heq] at hfm
        exact hfm
      exact ⟨by simp [ht], by simp [respPapers]⟩
    · next indices scores t heq =>
      have ht : t.filterMap ragCtxOf = [] := by
        rw [heq] at hfm
        exact hfm
      split
      · exact ⟨by simp [ht], by simp [respPapers]⟩
      · split
        · exact ⟨by simp [ht], by simp [respPapers]⟩
        · next ctx hctx =>
          have hcl := hctxlen _ _ _ hctx
          split
          · refine ⟨?_, by simp [respPapers]⟩
            intro c hc
            simp only [List.filterMap_append, ht, List.nil_append] at hc
            simp only [ragCtxOf, List.filterMap_cons, List.filterMap_nil] at hc
            rcases List.mem_cons.mp hc with rfl | hc
            · exact hcl
            · simp at hc
          · split
            · refine ⟨?_, by simp [respPapers]⟩
              intro c hc
              simp only [List.filterMap_append, ht, List.nil_append] at hc
              simp only [ragCtxOf, List.filterMap_cons, List.filterMap_nil] at hc
              rcases List.mem_cons.mp hc with rfl | hc
              · exact hcl
              · simp at hc
            · next pds hpds =>
              refine ⟨?_, ?_⟩
              · intro c hc
                simp only [List.filterMap_append, ht, List.nil_append] at hc
                simp only [ragCtxOf, List.filterMap_cons, List.filterMap_nil] at hc
                rcases List.mem_cons.mp hc with rfl | hc
                · exact hcl
                · simp at hc
              · simpa [respPapers] using hpdslen _ _ _ hpds

/-- C10: every rag response carries at most 5 papers, and every generation
context ever sent carries at most 5 papers, on both the explicit and the
semantic path: the caller-supplied list is truncated to 5 before use, and
the `top_k=10` semantic result is truncated to 5 at context and result
assembly. -/
theorem c10_result_bounded (env : Env) (body : ReqBody) (cache : Option (List Paper)) :
    (∀ ctx ∈ ((lambda_handler env body cache).2.1).filterMap ragCtxOf, ctx.length ≤ 5) ∧
    (respPapers (lambda_handler env body cache).1).length ≤ 5 := by
  have hLfm : ((load_papers env.papersFetch cache).trace).filterMap ragCtxOf = [] := by
    rcases load_papers_trace env.papersFetch cache with h | h <;> rw [h] <;> rfl
  simp only [lambda_handler]
  split
  · -- explain_paper
    split
    · exact ⟨by simp [hLfm], by simp [respPapers]⟩
    · split
      · exact ⟨by simp [hLfm], by simp [respPapers]⟩
      · split
        all_goals
          refine ⟨?_, by simp [respPapers]⟩
          intro c hc
          simp only [List.filterMap_append, hLfm, List.nil_append,
            ragCtxOf, List.filterMap_cons, List.filterMap_nil] at hc
          simp at hc
  · split
    · -- compare_papers
      split
      · exact ⟨by simp [hLfm], by simp [respPapers]⟩
      · split
        all_goals
          refine ⟨?_, by simp [respPapers]⟩
          intro c hc
          simp only [List.filterMap_append, hLfm, List.nil_append,
            ragCtxOf, List.filterMap_cons, List.filterMap_nil] at hc
          simp at hc
    · split
      · -- rag_search
        obtain ⟨hb1, hb2⟩ :=
          rag_search_bounded env (load_papers env.papersFetch cache).papers body
        refine ⟨?_, hb2⟩
        intro c hc
        simp only [List.filterMap_append, hLfm, List.nil_append] at hc
        exact hb1 c hc
      · -- invalid action
        exact ⟨by simp [hLfm], by simp [respPapers]⟩

/-- Witness for C10 at a concrete successful explicit-path request with
six supplied indices. -/
theorem c10_result_bounded_witness :
    (∀ ctx ∈ ((lambda_handler env6 body6 none).2.1).filterMap ragCtxOf,
      ctx.length ≤ 5) ∧
    (respPapers (lambda_handler env6 body6 none).1).length ≤ 5 :=
  c10_result_bounded env6 body6 none

end RagLambda



